import Mathlib

/-!
# Organisation controller (`server/controllers/organisationController.js`)

A shallow embedding of the request handlers of the organisation controller.

* JavaScript values are `JSVal`; plain objects live on a `Heap` and are
  referred to by address, so that "a new object" and "the same object" are
  different things in the model, as they are in the program. An object has
  its own properties and a prototype link.
* The document store, the response object and the error middleware are the
  fields of a `World`; every handler is a function from a world and a request
  to a world.
* The store client (Mongoose), `catchAsync` and `AppError` are not part of the
  controller file; they are modelled from their documented contracts and are
  marked as such.
-/

set_option autoImplicit false

namespace Jatayu

/-! ## JavaScript values and plain objects -/

/-- A JavaScript value as it can occur in a parsed JSON request body.
Numbers are integers here (only their being zero or not is ever inspected by
the controller); objects are referred to by their heap address. -/
inductive JSVal where
  | undefined
  | null
  | bool (b : Bool)
  | num (n : Int)
  | str (s : String)
  | ref (r : Nat)
  deriving DecidableEq, Repr

/-- JavaScript truthiness (`ToBoolean`). -/
def JSVal.truthy : JSVal → Bool
  | .undefined => false
  | .null => false
  | .bool b => b
  | .num n => n != 0
  | .str s => s != ""
  | .ref _ => true

/-- A plain object: its own enumerable string-keyed properties, in insertion
order. -/
abbrev Obj := List (String × JSVal)

/-- The result of `Object.keys(o)`. -/
def Obj.keys (o : Obj) : List String := o.map Prod.fst

/-- Property read `o[k]`: `undefined` when `k` is not an own property. -/
def Obj.get : Obj → String → JSVal
  | [], _ => .undefined
  | (k', v) :: o, k => if k' = k then v else Obj.get o k

/-- Property write `o[k] = v`: overwrite in place when `k` is already an own
property, append a new property otherwise. -/
def Obj.set : Obj → String → JSVal → Obj
  | [], k, v => [(k, v)]
  | (k', v') :: o, k, v => if k' = k then (k', v) :: o else (k', v') :: Obj.set o k v

/-- The prototype link of an object: the built-in `Object.prototype` (the
prototype of every object literal and of every parsed JSON object), `null`, or
another object of the heap. -/
inductive Proto where
  | objectPrototype
  | null
  | obj (r : Nat)
  deriving DecidableEq, Repr

/-- An object of the heap: its own properties and its prototype link. -/
structure Cell where
  props : Obj
  proto : Proto
  deriving DecidableEq, Repr

/-- The object heap: the object at address `r` is the `r`-th entry. -/
abbrev Heap := List Cell

/-- The object at address `r` (the empty object for a dangling address). -/
def Heap.cell (h : Heap) (r : Nat) : Cell := (h.get? r).getD ⟨[], .objectPrototype⟩

/-- The own properties of the object at address `r`. The handlers read
request bodies, which are parsed JSON objects: their prototype is
`Object.prototype`, which has none of the keys the handlers read, so a
property read on them is a read of an own property. -/
def Heap.read (h : Heap) (r : Nat) : Obj := (h.cell r).props

/-- Whether an assignment to the key `__proto__`, looked up along the
prototype chain that starts at `p`, arrives at the accessor property
`__proto__` of `Object.prototype`: no object on the way has an own property of
that name, and the chain does not end in `null`. -/
def reachesProtoSetter (h : Heap) : Nat → Proto → Bool
  | _, .objectPrototype => true
  | _, .null => false
  | 0, .obj _ => false
  | fuel + 1, .obj r =>
    !(decide ("__proto__" ∈ Obj.keys (h.read r))) && reachesProtoSetter h fuel (h.cell r).proto

/-- Heap after the assignment `r[k] = v` on an ordinary object. An own
property is overwritten; a key that is not an own property becomes a new own
property, except `__proto__` when the lookup arrives at the accessor of
`Object.prototype`: then the setter runs, which makes `v` the prototype of `r`
when `v` is an object or `null`, does nothing otherwise, and creates no own
property. The cycle check of the setter is left out: `filterObj`, the only
caller, assigns to an object it has just created, which no value refers to. -/
def Heap.assign (h : Heap) (r : Nat) (k : String) (v : JSVal) : Heap :=
  if k = "__proto__" ∧ k ∉ Obj.keys (h.read r) ∧
      reachesProtoSetter h h.length (h.cell r).proto = true then
    match v with
    | .ref p => h.set r { h.cell r with proto := .obj p }
    | .null => h.set r { h.cell r with proto := .null }
    | _ => h
  else h.set r { h.cell r with props := Obj.set (h.read r) k v }

/-- One call of the `forEach` callback of `filterObj`:
`if (allowedFields.includes(el)) newObj[el] = obj[el]`. The key `el` is an own
key of `obj`, so `obj[el]` reads the own property. -/
def filterStep (obj newObj : Nat) (allowedFields : List String) (hp : Heap) (el : String) :
    Heap :=
  if allowedFields.contains el then hp.assign newObj el (Obj.get (hp.read obj) el) else hp

/-- The function `filterObj(obj, ...allowedFields)`: allocates `newObj = {}`,
walks `Object.keys(obj)` (computed once, before the loop) and copies the
allowed properties. Returns the heap after the call and the address of
`newObj`. The `console.log(obj)` only prints. -/
def filterObj (h : Heap) (obj : Nat) (allowedFields : List String) : Heap × Nat :=
  let newObj := h.length
  let h0 := h ++ [⟨[], .objectPrototype⟩]
  ((Obj.keys (h0.read obj)).foldl (filterStep obj newObj allowedFields) h0, newObj)

/-! ## Errors, documents and the world -/

/-- Values that are thrown, returned or handed to the error middleware.
Modelled from the spec: `AppError` (`utils/appError`, not part of the
controller file) is a structured error carrying a message and an HTTP status
code; the other constructors are the built-in JavaScript errors. -/
inductive JSError where
  | appError (message : String) (statusCode : Nat)
  | error (message : String)
  | referenceError (name : String)
  | typeError (message : String)
  | validationError
  deriving DecidableEq, Repr

/-- Evaluation of an identifier that the module neither declares, nor imports,
nor receives as a parameter (`createSendToken`, `next` inside
`getAllRequests`, `OrgId`): a `ReferenceError`. -/
def freeIdent (name : String) : Except JSError JSVal :=
  .error (.referenceError name)

/-- The `location` sub-document of an organisation. -/
structure Location (N : Type) where
  long : N
  lat : N
  deriving DecidableEq, Repr

/-- An entry of `notifications`: the time stamp `at` and the `status` flag. -/
structure Notification where
  at_ : JSVal
  status : JSVal
  deriving DecidableEq, Repr

/-- Modelled from the spec: a stored Organisation document
(`models/organisationModel` is not part of the controller file). The fields
are the attributes the handlers read or write; coordinates are numbers of the
store, of a type `N`. -/
structure Org (N : Type) where
  _id : JSVal
  contactEmail : JSVal
  name : JSVal
  type : JSVal
  location : Location N
  employees : JSVal
  Id : JSVal
  password : JSVal
  passwordConfirm : JSVal
  notifications : List Notification
  requests : List JSVal
  deriving DecidableEq, Repr

/-- Modelled from the spec: a stored Session document
(`models/session.model` is not part of the controller file). -/
structure Session where
  _id : JSVal
  organisations : List JSVal
  notifications : List JSVal
  deriving DecidableEq, Repr

/-- Modelled from the spec: what the handlers need of the Organisation schema,
which is not part of the controller file: the field validators, the generation
of identities and the cast of a value to a number of the store. -/
structure Schema (N : Type) where
  validate : Org N → Bool
  newId : List (Org N) → JSVal
  castNum : JSVal → N

/-- Modelled from the spec: the arithmetic of the store behind the expression
operators of the pipeline, `$subtract`, `$pow [·, 2]`, `$sum` and `$sqrt`.
The operations are parameters and no law is assumed of them, so that machine
arithmetic is an instance. -/
structure Arith (N : Type) where
  subtract : N → N → N
  square : N → N
  sum : N → N → N
  sqrt : N → N

/-- The pipeline written in `getAllOrganisation`, as data: the reference
location of the `$project` stage, the type of the `$match` stage and the
direction of the `$sort` stage on `distance`. -/
structure Pipeline (N : Type) where
  projectLocation : Location N
  matchType : JSVal
  sortDistance : Int

/-- The query filters written in the controller. -/
inductive Filter where
  | byId (id : JSVal)
  | byContactEmail (email : JSVal)
  | byType (type : JSVal)
  | byIdAndNotificationAt (id : JSVal) (at_ : JSVal)
  deriving DecidableEq, Repr

/-- A call of the store client, as written in the controller. -/
inductive StoreCall where
  | findOne (f : Filter)
  | find (f : Filter)
  | aggregate
  | findById (id : JSVal)
  | create (doc : Nat)
  | findByIdAndUpdate (id : JSVal) (update : Nat) (optNew : Bool) (runValidators : Bool)
  | findOneAndUpdate (f : Filter)
  | sessionCreate (notifications : List JSVal)
  deriving DecidableEq, Repr

/-- A document produced by the `$project` stage of `getAllOrganisation`. -/
structure Projected (N : Type) where
  _id : JSVal
  name : JSVal
  type : JSVal
  location : Location N
  distance : N
  deriving DecidableEq, Repr

/-- The `data` member of a response envelope. -/
inductive Payload (N : Type) where
  | organisation (o : Option (Org N))
  | organisations (l : List (Projected N))
  | requests (l : List JSVal)
  | session (s : Session)
  | token
  deriving DecidableEq, Repr

/-- A response written with `res.status(statusCode).json(...)`. -/
structure Response (N : Type) where
  statusCode : Nat
  status : String
  data : Payload N
  deriving DecidableEq, Repr

/-- Everything a handler can read or change. `calls` logs the store-client
calls, `sent` the responses written, `forwarded` the errors handed to the
error middleware; all three oldest first. -/
structure World (N : Type) where
  heap : Heap
  organisations : List (Org N)
  sessions : List Session
  calls : List StoreCall
  sent : List (Response N)
  forwarded : List JSError

/-- An incoming request: the address of `req.body` and `req.params`. -/
structure Req where
  body : Nat
  params : Obj

/-- How the body of an `async` handler ends: it returns a value (`none` for
`undefined`) or it throws. -/
inductive Completion where
  | returned (v : Option JSError)
  | threw (e : JSError)
  deriving DecidableEq, Repr

/-! ## The store client -/

section Store

variable {N : Type}

/-- Whether a document satisfies a filter. -/
def Filter.holds (f : Filter) (o : Org N) : Bool :=
  match f with
  | .byId id => decide (o._id = id)
  | .byContactEmail email => decide (o.contactEmail = email)
  | .byType type => decide (o.type = type)
  | .byIdAndNotificationAt id a =>
    decide (o._id = id) && o.notifications.any (fun n => decide (n.at_ = a))

/-- Appends a call to the log. -/
def World.log (w : World N) (c : StoreCall) : World N :=
  { w with calls := w.calls ++ [c] }

/-- The statement `res.status(statusCode).json({status: "success", data})`. -/
def World.respond (w : World N) (statusCode : Nat) (data : Payload N) : World N :=
  { w with sent := w.sent ++ [⟨statusCode, "success", data⟩] }

/-- The call `next(err)` of the framework. -/
def World.forward (w : World N) (e : JSError) : World N :=
  { w with forwarded := w.forwarded ++ [e] }

/-- Modelled from the spec: `Organisation.findOne(filter)`, the first stored
document satisfying the filter, or `null`. -/
def findOne (w : World N) (f : Filter) : World N × Option (Org N) :=
  (w.log (.findOne f), w.organisations.find? f.holds)

/-- Modelled from the spec: `Organisation.find(filter)`: returns a Query,
which stands for the stored documents satisfying the filter. -/
def find (w : World N) (f : Filter) : World N × List (Org N) :=
  (w.log (.find f), w.organisations.filter f.holds)

/-- The member `aggregate` of the Query that `Organisation.find` returns. The
store client is Mongoose, whose Query has no method of that name (pipelines
are run from the model, not from a query): the member is `undefined` and
calling it throws a `TypeError`. -/
def queryAggregate : Except JSError Unit :=
  .error (.typeError "Organisation.find(...).aggregate is not a function")

/-- Modelled from the spec: `Organisation.findById(id).populate('requests')`.
The `requests` of a stored document are kept already resolved, so population
returns the document as it is. -/
def findByIdPopulate (w : World N) (id : JSVal) : World N × Option (Org N) :=
  (w.log (.findById id), w.organisations.find? (Filter.holds (.byId id)))

/-- The nested object `o[k]`, the empty object when `o[k]` is not an object. -/
def subObj (h : Heap) (o : Obj) (k : String) : Obj :=
  match Obj.get o k with
  | .ref r => h.read r
  | _ => []

/-- Modelled from the spec: the document the schema builds from a plain
object: each attribute is taken from the path of the same name. -/
def castOrg (schema : Schema N) (w : World N) (doc : Obj) : Org N :=
  { _id := if "_id" ∈ Obj.keys doc then Obj.get doc "_id" else schema.newId w.organisations
    contactEmail := Obj.get (subObj w.heap doc "contact") "email"
    name := Obj.get doc "name"
    type := Obj.get doc "type"
    location :=
      { long := schema.castNum (Obj.get (subObj w.heap doc "location") "long")
        lat := schema.castNum (Obj.get (subObj w.heap doc "location") "lat") }
    employees := Obj.get doc "employees"
    Id := Obj.get doc "Id"
    password := Obj.get doc "password"
    passwordConfirm := Obj.get doc "passwordConfirm"
    notifications := []
    requests := [] }

/-- Modelled from the spec: `Organisation.create(doc)`: builds a document from
the plain object at address `doc`, validates it and stores it. -/
def create (schema : Schema N) (w : World N) (doc : Nat) :
    World N × Except JSError (Org N) :=
  let w1 := w.log (.create doc)
  let o := castOrg schema w1 (w1.heap.read doc)
  if schema.validate o then
    ({ w1 with organisations := w1.organisations ++ [o] }, .ok o)
  else (w1, .error .validationError)

/-- The value of path `k` after an update `u`: the new value when `u` has the
key, the old one otherwise. -/
def updPath (u : Obj) (k : String) (old : JSVal) : JSVal :=
  if k ∈ Obj.keys u then Obj.get u k else old

/-- Modelled from the spec: a document after the update document `u` (a plain
object without operators, hence a `$set` of its keys) is applied. The identity
and the array-valued paths are not touched. -/
def applyUpdate (schema : Schema N) (h : Heap) (o : Org N) (u : Obj) : Org N :=
  { o with
    contactEmail :=
      if "contact" ∈ Obj.keys u then Obj.get (subObj h u "contact") "email"
      else o.contactEmail
    name := updPath u "name" o.name
    type := updPath u "type" o.type
    location :=
      if "location" ∈ Obj.keys u then
        { long := schema.castNum (Obj.get (subObj h u "location") "long")
          lat := schema.castNum (Obj.get (subObj h u "location") "lat") }
      else o.location
    employees := updPath u "employees" o.employees
    Id := updPath u "Id" o.Id
    password := updPath u "password" o.password
    passwordConfirm := updPath u "passwordConfirm" o.passwordConfirm }

/-- Replaces the first element satisfying `p` by `n`. -/
def replaceFirst {α : Type} (p : α → Bool) (n : α) : List α → List α
  | [] => []
  | o :: os => if p o then n :: os else o :: replaceFirst p n os

/-- Modelled from the spec: `Organisation.findByIdAndUpdate(id, update, opts)`
with `opts = {new, runValidators}`: `null` when no document has the identity;
otherwise the update is applied, validated when `runValidators` is set, stored,
and the document after (`new`) or before the update is returned. -/
def findByIdAndUpdate (schema : Schema N) (w : World N) (id : JSVal) (update : Nat)
    (optNew : Bool) (runValidators : Bool) : World N × Except JSError (Option (Org N)) :=
  let w1 := w.log (.findByIdAndUpdate id update optNew runValidators)
  match w1.organisations.find? (Filter.holds (.byId id)) with
  | none => (w1, .ok none)
  | some o =>
    let o1 := applyUpdate schema w1.heap o (w1.heap.read update)
    if runValidators && !schema.validate o1 then (w1, .error .validationError)
    else
      ({ w1 with organisations := replaceFirst (Filter.holds (.byId id)) o1 w1.organisations },
        .ok (some (if optNew then o1 else o)))

/-- The positional update `notifications.$.status = true`: the first entry
whose `at` is `a` gets the status `true`. -/
def setFirstStatus (a : JSVal) : List Notification → List Notification
  | [] => []
  | n :: ns =>
    if n.at_ = a then { n with status := .bool true } :: ns else n :: setFirstStatus a ns

/-- Modelled from the spec: `Organisation.findOneAndUpdate({_id: id,
"notifications.at": a}, {$set: {'notifications.$.status': true}})`; returns
the document before the update, or `null`. -/
def findOneAndUpdate (w : World N) (id : JSVal) (a : JSVal) : World N × Option (Org N) :=
  let f := Filter.byIdAndNotificationAt id a
  let w1 := w.log (.findOneAndUpdate f)
  match w1.organisations.find? f.holds with
  | none => (w1, none)
  | some o =>
    let o1 : Org N := { o with notifications := setFirstStatus a o.notifications }
    ({ w1 with organisations := replaceFirst f.holds o1 w1.organisations }, some o)

/-- Modelled from the spec: `Session.create({notifications})`: stores and
returns a new session with the given notifications. -/
def sessionCreate (w : World N) (notifications : List JSVal) : World N × Session :=
  let w1 := w.log (.sessionCreate notifications)
  let s : Session :=
    { _id := .num w1.sessions.length, organisations := [], notifications := notifications }
  ({ w1 with sessions := w1.sessions ++ [s] }, s)

/-! ## The aggregation pipeline of `getAllOrganisation` -/

/-- The `$project` stage: keeps `_id`, `name`, `type`, `location` and adds
`distance = $sqrt($sum [$pow [long - location.long, 2], $pow [lat - location.lat, 2]])`,
computed with the arithmetic of the store. -/
def project (ar : Arith N) (location : Location N) (o : Org N) : Projected N :=
  { _id := o._id
    name := o.name
    type := o.type
    location := o.location
    distance := ar.sqrt (ar.sum (ar.square (ar.subtract o.location.long location.long))
      (ar.square (ar.subtract o.location.lat location.lat))) }

/-- The pipeline of `getAllOrganisation` for the reference location
`location` and the requested type `type`: `$project`, `$match: {type}`,
`$sort: {distance: -1}`. -/
def pipelineOf (location : Location N) (type : JSVal) : Pipeline N :=
  { projectLocation := location, matchType := type, sortDistance := -1 }

variable [LinearOrder N]

/-- The order of a `$sort` stage on `distance` with a negative direction:
descending distance. -/
def sortOrder (a b : Projected N) : Prop := b.distance ≤ a.distance

instance sortOrderDecidable : DecidableRel (sortOrder : Projected N → Projected N → Prop) :=
  fun a b => inferInstanceAs (Decidable (b.distance ≤ a.distance))

/-- The order of a `$sort` stage on `distance` with a non-negative direction:
ascending distance. -/
def sortOrderAsc (a b : Projected N) : Prop := a.distance ≤ b.distance

instance sortOrderAscDecidable :
    DecidableRel (sortOrderAsc : Projected N → Projected N → Prop) :=
  fun a b => inferInstanceAs (Decidable (a.distance ≤ b.distance))

/-- Modelled from the spec: the execution of a pipeline by the aggregation
facility of the store on the documents `docs`: project, keep the documents of
the matched type, sort on `distance` in the given direction. -/
def runPipeline (ar : Arith N) (p : Pipeline N) (docs : List (Org N)) : List (Projected N) :=
  let matched := (docs.map (project ar p.projectLocation)).filter
    (fun d => decide (d.type = p.matchType))
  if p.sortDistance < 0 then matched.insertionSort sortOrder
  else matched.insertionSort sortOrderAsc

/-! ## The handlers -/

/-- Modelled from the spec: `catchAsync(fn)` (`utils/catchAsync`, not part of
the controller file) runs the asynchronous handler and forwards a rejection to
the error middleware; a returned value is dropped. -/
def catchAsync (fn : World N → Req → World N × Completion) (w : World N) (req : Req) :
    World N :=
  match fn w req with
  | (w1, .threw e) => w1.forward e
  | (w1, .returned _) => w1

/-- The body of `createOrganisation`. The promise of `Organisation.create` is
not awaited; the write it stands for is carried out in the model at the call. -/
def createOrganisationBody (schema : Schema N) (w : World N) (req : Req) :
    World N × Completion :=
  let email := Obj.get (w.heap.read req.body) "email"
  let (w1, org) := findOne w (.byContactEmail email)
  match org with
  | none =>
    let (w2, _newOrg) := create schema w1 req.body
    match freeIdent "createSendToken" with
    | .error e => (w2, .threw e)
    | .ok _ => (w2.respond 201 .token, .returned none)
  | some _ => (w1, .threw (.error "Organisation Already exists"))

/-- The handler `exports.createOrganisation`. -/
def createOrganisation (schema : Schema N) : World N → Req → World N :=
  catchAsync (createOrganisationBody schema)

/-- The body of `updateOrganisation`. The `console.log` only prints. -/
def updateOrganisationBody (schema : Schema N) (w : World N) (req : Req) :
    World N × Completion :=
  let body := w.heap.read req.body
  if (Obj.get body "password").truthy || (Obj.get body "passwordConfirm").truthy then
    (w, .returned (some (.appError
      "This route is not for password update , use /updateMyPassword for that " 400)))
  else
    let (heap1, _filteredBody) := filterObj w.heap req.body ["name", "Id", "employees"]
    let w1 := { w with heap := heap1 }
    match findByIdAndUpdate schema w1 (Obj.get (w1.heap.read req.body) "_id") req.body true true
    with
    | (w2, .error e) => (w2, .threw e)
    | (w2, .ok updatedOrganisation) =>
      (w2.respond 200 (.organisation updatedOrganisation), .returned none)

/-- The handler `exports.updateOrganisation`. -/
def updateOrganisation (schema : Schema N) : World N → Req → World N :=
  catchAsync (updateOrganisationBody schema)

/-- The body of `getAllOrganisation`. Destructuring `location` from `null`
throws a `TypeError`. In `Organisation.find({type}).aggregate([...])` the
query is built, the member `aggregate` is read, the pipeline array is
evaluated, and then the call of the member is attempted. -/
def getAllOrganisationBody (ar : Arith N) (w : World N) (req : Req) : World N × Completion :=
  let _id := Obj.get (w.heap.read req.body) "_id"
  let type := Obj.get (w.heap.read req.body) "type"
  let (w1, reference) := findOne w (.byId _id)
  match reference with
  | none => (w1, .threw (.typeError "Cannot destructure property 'location' of null"))
  | some r =>
    let location := r.location
    let (w2, docs) := find w1 (.byType type)
    let pipeline := pipelineOf location type
    match queryAggregate with
    | .error e => (w2, .threw e)
    | .ok _ =>
      let Organisations := runPipeline ar pipeline docs
      ((w2.log .aggregate).respond 200 (.organisations Organisations), .returned none)

/-- The handler `exports.getAllOrganisation`. -/
def getAllOrganisation (ar : Arith N) : World N → Req → World N :=
  catchAsync (getAllOrganisationBody ar)

/-- The body of `getAllRequests`. The handler is declared as
`async (req, res)`: `next` is a free identifier in it. -/
def getAllRequestsBody (w : World N) (req : Req) : World N × Completion :=
  let orgId := Obj.get req.params "orgId"
  let (w1, organization) := findByIdPopulate w orgId
  match organization with
  | none =>
    match freeIdent "next" with
    | .error e => (w1, .threw e)
    | .ok _ => (w1.forward (.appError "Organization not found" 404), .returned none)
  | some o => (w1.respond 200 (.requests o.requests), .returned none)

/-- The handler `exports.getAllRequests`. -/
def getAllRequests : World N → Req → World N :=
  catchAsync getAllRequestsBody

/-- The body of `AcceptReqFromOff`. The filter `{_id : OrgId, ...}` is
evaluated left to right, `OrgId` first. -/
def AcceptReqFromOffBody (w : World N) (req : Req) : World N × Completion :=
  let request := Obj.get (w.heap.read req.body) "request"
  match freeIdent "OrgId" with
  | .error e => (w, .threw e)
  | .ok OrgId =>
    match request with
    | .ref r =>
      let (w1, _org) := findOneAndUpdate w OrgId (Obj.get (w.heap.read r) "at")
      let (w2, session) := sessionCreate w1 [request]
      (w2.respond 200 (.session session), .returned none)
    | _ => (w, .threw (.typeError "Cannot read properties of undefined (reading 'at')"))

/-- The handler `exports.AcceptReqFromOff`. -/
def AcceptReqFromOff : World N → Req → World N :=
  catchAsync AcceptReqFromOffBody

end Store

/-! ## Concrete schemas, stores and requests -/

/-- A schema whose validators accept every document. -/
def permissive : Schema ℤ :=
  { validate := fun _ => true
    newId := fun os => .num os.length
    castNum := fun v => match v with
      | .num n => n
      | _ => 0 }

/-- Integer arithmetic, with the integer square root `isqrt`. -/
def intArith (isqrt : ℤ → ℤ) : Arith ℤ :=
  { subtract := fun a b => a - b
    square := fun a => a ^ 2
    sum := fun a b => a + b
    sqrt := isqrt }

/-- A heap of parsed JSON objects with the given own properties. -/
def heapOf (objs : List Obj) : Heap :=
  objs.map (fun o => ⟨o, .objectPrototype⟩)

/-- A stored organisation with identity `1` at the origin. -/
def org0 : Org ℤ :=
  { _id := .num 1
    contactEmail := .str "a@x.org"
    name := .str "A"
    type := .str "fire"
    location := ⟨0, 0⟩
    employees := .num 3
    Id := .str "A1"
    password := .str "secret"
    passwordConfirm := .str "secret"
    notifications := [⟨.num 5, .bool false⟩]
    requests := [] }

/-- The organisation `org0` with another identity and location. -/
def orgAt (i : ℤ) (x y : ℤ) : Org ℤ :=
  { org0 with _id := .num i, location := ⟨x, y⟩ }

/-- A world holding the organisations `orgs` and the parsed objects `objs`, in which
nothing has been called, sent or forwarded yet. -/
def worldOf {N : Type} (objs : List Obj) (orgs : List (Org N)) : World N :=
  { heap := heapOf objs, organisations := orgs, sessions := [], calls := [], sent := [],
    forwarded := [] }

/-- A request whose body is the object at address `0`, without parameters. -/
def reqBody0 : Req := { body := 0, params := [] }

/-- The integer square root, exact on perfect squares. -/
def floorSqrt (x : ℤ) : ℤ :=
  ((List.range (x.toNat + 1)).filter (fun k => decide (k * k ≤ x.toNat))).length - 1

/-- Body `{_id: 1, password: ""}` against a store holding `org0`. -/
def worldEmptyPassword : World ℤ :=
  worldOf [[("_id", .num 1), ("password", .str "")]] [org0]

/-- Body `{_id: 1, password: "new"}` against a store holding `org0`. -/
def worldNewPassword : World ℤ :=
  worldOf [[("_id", .num 1), ("password", .str "new")]] [org0]

/-- Body `{_id: 1, name: "B", type: "police"}` against a store holding `org0`. -/
def worldRename : World ℤ :=
  worldOf [[("_id", .num 1), ("name", .str "B"), ("type", .str "police")]] [org0]

/-- Body `{email: "a@x.org"}` against a store holding `org0`, whose contact
email is `a@x.org`. -/
def worldDuplicate : World ℤ :=
  worldOf [[("email", .str "a@x.org")]] [org0]

/-- Body `{email: "b@x.org"}` against a store holding `org0`. -/
def worldFresh : World ℤ :=
  worldOf [[("email", .str "b@x.org")]] [org0]

/-- Body `{email: "b@x.org", contact: {email: "a@x.org"}}` against a store
holding `org0`, whose contact email is `a@x.org`. -/
def worldOtherEmail : World ℤ :=
  worldOf [[("email", .str "b@x.org"), ("contact", .ref 1)], [("email", .str "a@x.org")]] [org0]

/-- A request for the requests of organisation `7`. -/
def reqOrg7 : Req := { body := 0, params := [("orgId", .num 7)] }

/-- Body `{request: {at: 5}}` against a store holding `org0`, which has a
notification with `at == 5`. -/
def worldAccept : World ℤ :=
  worldOf [[("request", .ref 1)], [("at", .num 5)]] [org0]

/-- Body `{_id: 1, type: "fire"}` against three organisations of type `fire`
at distances 0, 5 and 10 from the first. -/
def worldThree : World ℤ :=
  worldOf [[("_id", .num 1), ("type", .str "fire")]] [org0, orgAt 2 3 4, orgAt 3 6 8]

/-- A heap with the single object `{name: "B", password: "x"}`. -/
def heapSample : Heap :=
  heapOf [[("name", .str "B"), ("password", .str "x")]]

/-- A heap with the single object parsed from `{"name": "B", "__proto__": 5}`:
both keys are own properties of it. -/
def heapProtoKey : Heap :=
  heapOf [[("name", .str "B"), ("__proto__", .num 5)]]

/-- Body `{_id: 1, type: "fire"}` against two organisations of type `fire`. -/
def worldTwo : World ℤ :=
  worldOf [[("_id", .num 1), ("type", .str "fire")]] [org0, orgAt 2 3 4]

/-! ## Lemmas on objects and the heap -/

theorem Obj.get_set_same (o : Obj) (k : String) (v : JSVal) :
    Obj.get (Obj.set o k v) k = v := by
  induction o with
  | nil => simp [Obj.set, Obj.get]
  | cons p o ih =>
    obtain ⟨k', v'⟩ := p
    by_cases hk : k' = k
    · simp [Obj.set, Obj.get, hk]
    · simp [Obj.set, Obj.get, hk, ih]

theorem Obj.get_set_ne (o : Obj) (k k0 : String) (v : JSVal) (hne : k ≠ k0) :
    Obj.get (Obj.set o k v) k0 = Obj.get o k0 := by
  induction o with
  | nil => simp [Obj.set, Obj.get, hne]
  | cons p o ih =>
    obtain ⟨k', v'⟩ := p
    by_cases hk : k' = k
    · subst hk
      simp [Obj.set, Obj.get, hne]
    · by_cases hk0 : k' = k0
      · subst hk0
        simp [Obj.set, Obj.get, hk]
      · simp [Obj.set, Obj.get, hk, hk0, ih]

theorem Obj.mem_keys_set (o : Obj) (k k0 : String) (v : JSVal) :
    k0 ∈ Obj.keys (Obj.set o k v) ↔ k0 = k ∨ k0 ∈ Obj.keys o := by
  induction o with
  | nil => simp [Obj.set, Obj.keys]
  | cons p o ih =>
    obtain ⟨k', v'⟩ := p
    by_cases hk : k' = k
    · subst hk
      simp [Obj.set, Obj.keys]
    · have ih' : k0 ∈ List.map Prod.fst (Obj.set o k v) ↔ k0 = k ∨ k0 ∈ List.map Prod.fst o := ih
      simp only [Obj.set, Obj.keys, hk, if_false, List.map_cons, List.mem_cons, ih']
      tauto

theorem Heap.cell_append_left (h : Heap) (c : Cell) (r : Nat) (hr : r < h.length) :
    Heap.cell (h ++ [c]) r = h.cell r := by
  simp [Heap.cell, List.getElem?_append_left hr]

theorem Heap.cell_append_length (h : Heap) (c : Cell) :
    Heap.cell (h ++ [c]) h.length = c := by
  simp [Heap.cell]

theorem Heap.cell_set_same (h : Heap) (r : Nat) (c : Cell) (hr : r < h.length) :
    Heap.cell (h.set r c) r = c := by
  simp [Heap.cell, hr]

theorem Heap.cell_set_ne (h : Heap) (r r0 : Nat) (c : Cell) (hne : r ≠ r0) :
    Heap.cell (h.set r c) r0 = h.cell r0 := by
  simp [Heap.cell, List.getElem?_set_ne hne]

theorem Heap.length_assign (h : Heap) (r : Nat) (k : String) (v : JSVal) :
    (h.assign r k v).length = h.length := by
  unfold Heap.assign
  split
  · split <;> simp
  · simp

theorem Heap.cell_assign_ne (h : Heap) (r r0 : Nat) (k : String) (v : JSVal)
    (hne : r ≠ r0) : (h.assign r k v).cell r0 = h.cell r0 := by
  unfold Heap.assign
  split
  · split
    · exact Heap.cell_set_ne _ _ _ _ hne
    · exact Heap.cell_set_ne _ _ _ _ hne
    · rfl
  · exact Heap.cell_set_ne _ _ _ _ hne

theorem Heap.read_assign (h : Heap) (r : Nat) (k : String) (v : JSVal) (hr : r < h.length) :
    (h.assign r k v).read r = h.read r ∨
      (h.assign r k v).read r = Obj.set (h.read r) k v := by
  unfold Heap.assign
  split
  · left
    split
    · simp [Heap.read, Heap.cell_set_same _ _ _ hr]
    · simp [Heap.read, Heap.cell_set_same _ _ _ hr]
    · rfl
  · right
    simp [Heap.read, Heap.cell_set_same _ _ _ hr]

theorem Heap.read_assign_of_ne (h : Heap) (r : Nat) (k : String) (v : JSVal)
    (hr : r < h.length) (hk : k ≠ "__proto__") :
    (h.assign r k v).read r = Obj.set (h.read r) k v := by
  unfold Heap.assign
  rw [if_neg (fun hc => hk hc.1)]
  simp [Heap.read, Heap.cell_set_same _ _ _ hr]

theorem Heap.proto_assign_of_ne (h : Heap) (r : Nat) (k : String) (v : JSVal)
    (hr : r < h.length) (hk : k ≠ "__proto__") :
    ((h.assign r k v).cell r).proto = (h.cell r).proto := by
  unfold Heap.assign
  rw [if_neg (fun hc => hk hc.1)]
  simp [Heap.cell_set_same _ _ _ hr]

theorem Heap.read_assign_setter (h : Heap) (r : Nat) (v : JSVal) (hr : r < h.length)
    (hproto : (h.cell r).proto = .objectPrototype)
    (hown : "__proto__" ∉ Obj.keys (h.read r)) :
    (h.assign r "__proto__" v).read r = h.read r := by
  have hreach : reachesProtoSetter h h.length (h.cell r).proto = true := by
    rw [hproto]
    cases h.length <;> rfl
  unfold Heap.assign
  rw [if_pos ⟨rfl, hown, hreach⟩]
  split
  · simp [Heap.read, Heap.cell_set_same _ _ _ hr]
  · simp [Heap.read, Heap.cell_set_same _ _ _ hr]
  · rfl

theorem Obj.nodup_keys_set (o : Obj) (k : String) (v : JSVal) (hnd : (Obj.keys o).Nodup) :
    (Obj.keys (Obj.set o k v)).Nodup := by
  induction o with
  | nil => simp [Obj.set, Obj.keys]
  | cons p o ih =>
    obtain ⟨k', v'⟩ := p
    have hcons : k' ∉ Obj.keys o ∧ (Obj.keys o).Nodup := by
      simpa [Obj.keys] using hnd
    by_cases hk : k' = k
    · subst hk
      simpa [Obj.set, Obj.keys] using hnd
    · have hmem : k' ∉ Obj.keys (Obj.set o k v) := by
        rw [Obj.mem_keys_set]
        rintro (h1 | h1)
        · exact hk h1
        · exact hcons.1 h1
      have hrec := ih hcons.2
      have : Obj.keys (Obj.set ((k', v') :: o) k v) = k' :: Obj.keys (Obj.set o k v) := by
        simp [Obj.set, Obj.keys, hk]
      rw [this]
      exact List.nodup_cons.mpr ⟨hmem, hrec⟩

theorem filterStep_length (obj n : Nat) (allowed : List String) (hp : Heap) (el : String) :
    (filterStep obj n allowed hp el).length = hp.length := by
  unfold filterStep
  split
  · exact Heap.length_assign _ _ _ _
  · rfl

theorem filterStep_cell_other (obj n : Nat) (allowed : List String) (hp : Heap) (el : String)
    (r : Nat) (hr : r ≠ n) : (filterStep obj n allowed hp el).cell r = hp.cell r := by
  unfold filterStep
  split
  · exact Heap.cell_assign_ne _ _ _ _ _ (Ne.symm hr)
  · rfl

theorem filterStep_read_new (obj n : Nat) (allowed : List String) (hp : Heap) (el : String)
    (hn : n < hp.length) :
    (filterStep obj n allowed hp el).read n = hp.read n ∨
      (el ∈ allowed ∧
        (filterStep obj n allowed hp el).read n =
          Obj.set (hp.read n) el (Obj.get (hp.read obj) el)) := by
  unfold filterStep
  by_cases hel : el ∈ allowed
  · have hc : allowed.contains el = true := by simp [hel]
    rw [if_pos hc]
    rcases Heap.read_assign hp n el (Obj.get (hp.read obj) el) hn with h1 | h1
    · exact Or.inl h1
    · exact Or.inr ⟨hel, h1⟩
  · left
    simp [hel]

theorem filterStep_read_new_of_ne (obj n : Nat) (allowed : List String) (hp : Heap)
    (el : String) (hn : n < hp.length) (hel : el ∈ allowed) (hk : el ≠ "__proto__") :
    (filterStep obj n allowed hp el).read n =
      Obj.set (hp.read n) el (Obj.get (hp.read obj) el) := by
  unfold filterStep
  have hc : allowed.contains el = true := by simp [hel]
  rw [if_pos hc]
  exact Heap.read_assign_of_ne hp n el _ hn hk

theorem filterStep_proto_of_ne (obj n : Nat) (allowed : List String) (hp : Heap)
    (el : String) (hn : n < hp.length) (hk : el ≠ "__proto__") :
    ((filterStep obj n allowed hp el).cell n).proto = (hp.cell n).proto := by
  unfold filterStep
  split
  · exact Heap.proto_assign_of_ne hp n el _ hn hk
  · rfl

theorem filterStep_read_setter (obj n : Nat) (allowed : List String) (hp : Heap)
    (hn : n < hp.length) (hproto : (hp.cell n).proto = .objectPrototype)
    (hown : "__proto__" ∉ Obj.keys (hp.read n)) :
    (filterStep obj n allowed hp "__proto__").read n = hp.read n := by
  unfold filterStep
  split
  · exact Heap.read_assign_setter hp n _ hn hproto hown
  · rfl

/-- What the loop of `filterObj` does to the own properties of the new object
`n`: every key is either untouched, or it is an allowed key of the walk and now
holds the value it has in `obj`. -/
theorem filterFold_spec (obj n : Nat) (allowed : List String) (hne : obj ≠ n) :
    ∀ (ks : List String) (hp : Heap), n < hp.length →
      (ks.foldl (filterStep obj n allowed) hp).length = hp.length ∧
      (∀ r, r ≠ n → (ks.foldl (filterStep obj n allowed) hp).cell r = hp.cell r) ∧
      (∀ k,
        ((k ∈ Obj.keys ((ks.foldl (filterStep obj n allowed) hp).read n) ↔
            k ∈ Obj.keys (hp.read n)) ∧
          Obj.get ((ks.foldl (filterStep obj n allowed) hp).read n) k =
            Obj.get (hp.read n) k) ∨
        (k ∈ Obj.keys ((ks.foldl (filterStep obj n allowed) hp).read n) ∧
          Obj.get ((ks.foldl (filterStep obj n allowed) hp).read n) k =
            Obj.get (hp.read obj) k ∧ k ∈ ks ∧ k ∈ allowed)) ∧
      ((Obj.keys (hp.read n)).Nodup →
        (Obj.keys ((ks.foldl (filterStep obj n allowed) hp).read n)).Nodup) := by
  intro ks
  induction ks with
  | nil =>
    intro hp _
    exact ⟨rfl, fun _ _ => rfl, fun _ => Or.inl ⟨Iff.rfl, rfl⟩, fun hnd => hnd⟩
  | cons el ks ih =>
    intro hp hn
    have hlen := filterStep_length obj n allowed hp el
    have hn1 : n < (filterStep obj n allowed hp el).length := by rw [hlen]; exact hn
    obtain ⟨i1, i2, i3, i4⟩ := ih (filterStep obj n allowed hp el) hn1
    have hobj : (filterStep obj n allowed hp el).read obj = hp.read obj := by
      unfold Heap.read
      rw [filterStep_cell_other obj n allowed hp el obj hne]
    have hnew := filterStep_read_new obj n allowed hp el hn
    simp only [List.foldl_cons]
    refine ⟨by rw [i1, hlen], ?_, ?_, ?_⟩
    · intro r hr
      rw [i2 r hr, filterStep_cell_other obj n allowed hp el r hr]
    · intro k
      rcases i3 k with ⟨j1, j2⟩ | ⟨j1, j2, j3, j4⟩
      · rcases hnew with h1 | ⟨hel, h1⟩
        · left
          rw [h1] at j1 j2
          exact ⟨j1, j2⟩
        · by_cases hk : k = el
          · subst hk
            right
            refine ⟨j1.mpr ?_, ?_, List.mem_cons_self _ _, hel⟩
            · rw [h1, Obj.mem_keys_set]
              exact Or.inl rfl
            · rw [j2, h1, Obj.get_set_same]
          · left
            have hk1 : el ≠ k := fun h => hk h.symm
            rw [h1] at j1 j2
            rw [Obj.mem_keys_set] at j1
            rw [Obj.get_set_ne _ _ _ _ hk1] at j2
            refine ⟨j1.trans ?_, j2⟩
            constructor
            · rintro (h2 | h2)
              · exact absurd h2 hk
              · exact h2
            · exact Or.inr
      · right
        rw [hobj] at j2
        exact ⟨j1, j2, List.mem_cons_of_mem _ j3, j4⟩
    · intro hnd
      apply i4
      rcases hnew with h1 | ⟨_, h1⟩
      · rw [h1]
        exact hnd
      · rw [h1]
        exact Obj.nodup_keys_set _ _ _ hnd

/-- An allowed key of the walk other than `__proto__` is an own key of the new
object after the loop. -/
theorem filterFold_mem (obj n : Nat) (allowed : List String) (hne : obj ≠ n) :
    ∀ (ks : List String) (hp : Heap), n < hp.length →
      ∀ k, k ∈ ks → k ∈ allowed → k ≠ "__proto__" →
        k ∈ Obj.keys ((ks.foldl (filterStep obj n allowed) hp).read n) := by
  intro ks
  induction ks with
  | nil => intro hp _ k hk; exact absurd hk (List.not_mem_nil k)
  | cons el ks ih =>
    intro hp hn k hk hal hproto
    have hlen := filterStep_length obj n allowed hp el
    have hn1 : n < (filterStep obj n allowed hp el).length := by rw [hlen]; exact hn
    simp only [List.foldl_cons]
    by_cases hks : k ∈ ks
    · exact ih (filterStep obj n allowed hp el) hn1 k hks hal hproto
    · have hkel : k = el := by
        rcases List.mem_cons.mp hk with h1 | h1
        · exact h1
        · exact absurd h1 hks
      subst hkel
      have h1 := filterStep_read_new_of_ne obj n allowed hp k hn hal hproto
      have hin : k ∈ Obj.keys ((filterStep obj n allowed hp k).read n) := by
        rw [h1, Obj.mem_keys_set]
        exact Or.inl rfl
      obtain ⟨_, _, i3, _⟩ :=
        filterFold_spec obj n allowed hne ks (filterStep obj n allowed hp k) hn1
      rcases i3 k with ⟨j1, _⟩ | ⟨j1, _⟩
      · exact j1.mpr hin
      · exact j1

/-- The key `__proto__` never becomes an own key of the new object: its one
assignment runs the setter of `Object.prototype`. -/
theorem filterFold_no_proto_key (obj n : Nat) (allowed : List String) :
    ∀ (ks : List String) (hp : Heap), n < hp.length → ks.Nodup →
      "__proto__" ∉ Obj.keys (hp.read n) →
      ("__proto__" ∈ ks → (hp.cell n).proto = .objectPrototype) →
      "__proto__" ∉ Obj.keys ((ks.foldl (filterStep obj n allowed) hp).read n) := by
  intro ks
  induction ks with
  | nil => intro hp _ _ hown _; exact hown
  | cons el ks ih =>
    intro hp hn hnd hown hproto
    have hlen := filterStep_length obj n allowed hp el
    have hn1 : n < (filterStep obj n allowed hp el).length := by rw [hlen]; exact hn
    obtain ⟨hel, hnd1⟩ := List.nodup_cons.mp hnd
    simp only [List.foldl_cons]
    apply ih (filterStep obj n allowed hp el) hn1 hnd1
    · by_cases hk : el = "__proto__"
      · subst hk
        rw [filterStep_read_setter obj n allowed hp hn
          (hproto (List.mem_cons_self _ _)) hown]
        exact hown
      · rcases filterStep_read_new obj n allowed hp el hn with h1 | ⟨_, h1⟩
        · rw [h1]
          exact hown
        · rw [h1, Obj.mem_keys_set]
          rintro (h2 | h2)
          · exact hk h2.symm
          · exact hown h2
    · intro hmem
      have hk : el ≠ "__proto__" := fun h => hel (h ▸ hmem)
      rw [filterStep_proto_of_ne obj n allowed hp el hn hk]
      exact hproto (List.mem_cons_of_mem _ hmem)

/-- The frame of `filterObj`: the result is the first free address, and every
object that existed before the call is what it was. -/
theorem filterObj_frame (h : Heap) (obj : Nat) (allowedFields : List String)
    (hobj : obj < h.length) :
    (filterObj h obj allowedFields).2 = h.length ∧
    (filterObj h obj allowedFields).1.length = h.length + 1 ∧
    (∀ r, r < h.length → (filterObj h obj allowedFields).1.cell r = h.cell r) := by
  have hne : obj ≠ h.length := Nat.ne_of_lt hobj
  have hn : h.length < (h ++ [(⟨[], .objectPrototype⟩ : Cell)]).length := by simp
  obtain ⟨i1, i2, _, _⟩ := filterFold_spec obj h.length allowedFields hne
    (Obj.keys (Heap.read (h ++ [(⟨[], .objectPrototype⟩ : Cell)]) obj))
    (h ++ [⟨[], .objectPrototype⟩]) hn
  have hfst : (filterObj h obj allowedFields).1 =
      (Obj.keys (Heap.read (h ++ [(⟨[], .objectPrototype⟩ : Cell)]) obj)).foldl
        (filterStep obj h.length allowedFields) (h ++ [⟨[], .objectPrototype⟩]) := rfl
  rw [hfst]
  refine ⟨rfl, ?_, ?_⟩
  · rw [i1]
    simp
  · intro r hr
    rw [i2 r (Nat.ne_of_lt hr), Heap.cell_append_left h _ r hr]

/-- The own properties of the result of `filterObj`: each is an allowed key of
`obj` with the value it has in `obj`, no key occurs twice, and every allowed
key of `obj` other than `__proto__` is among them. -/
theorem filterObj_keys (h : Heap) (obj : Nat) (allowedFields : List String)
    (hobj : obj < h.length) :
    (∀ k, k ∈ Obj.keys ((filterObj h obj allowedFields).1.read
        (filterObj h obj allowedFields).2) →
      k ∈ Obj.keys (h.read obj) ∧ k ∈ allowedFields ∧
      Obj.get ((filterObj h obj allowedFields).1.read (filterObj h obj allowedFields).2) k =
        Obj.get (h.read obj) k) ∧
    (Obj.keys ((filterObj h obj allowedFields).1.read
      (filterObj h obj allowedFields).2)).Nodup ∧
    (∀ k, k ∈ Obj.keys (h.read obj) → k ∈ allowedFields → k ≠ "__proto__" →
      k ∈ Obj.keys ((filterObj h obj allowedFields).1.read
        (filterObj h obj allowedFields).2)) := by
  have hne : obj ≠ h.length := Nat.ne_of_lt hobj
  have hn : h.length < (h ++ [(⟨[], .objectPrototype⟩ : Cell)]).length := by simp
  have hr0 : Heap.read (h ++ [(⟨[], .objectPrototype⟩ : Cell)]) obj = h.read obj := by
    unfold Heap.read
    rw [Heap.cell_append_left h _ obj hobj]
  have hrn : Heap.read (h ++ [(⟨[], .objectPrototype⟩ : Cell)]) h.length = [] := by
    unfold Heap.read
    rw [Heap.cell_append_length]
  have hfst : (filterObj h obj allowedFields).1 =
      (Obj.keys (h.read obj)).foldl (filterStep obj h.length allowedFields)
        (h ++ [⟨[], .objectPrototype⟩]) := by
    simp only [filterObj, hr0]
  have hsnd : (filterObj h obj allowedFields).2 = h.length := rfl
  obtain ⟨_, _, i3, i4⟩ := filterFold_spec obj h.length allowedFields hne
    (Obj.keys (h.read obj)) (h ++ [⟨[], .objectPrototype⟩]) hn
  have hmem := filterFold_mem obj h.length allowedFields hne
    (Obj.keys (h.read obj)) (h ++ [⟨[], .objectPrototype⟩]) hn
  rw [hfst, hsnd]
  refine ⟨?_, ?_, ?_⟩
  · intro k hk
    rcases i3 k with ⟨j1, _⟩ | ⟨_, j2, j3, j4⟩
    · have := j1.mp hk
      rw [hrn] at this
      exact absurd this (List.not_mem_nil k)
    · rw [hr0] at j2
      exact ⟨j3, j4, j2⟩
  · apply i4
    rw [hrn]
    exact List.nodup_nil
  · intro k hk hal hproto
    exact hmem k hk hal hproto

/-- With an object whose keys are distinct, `__proto__` is not an own key of
the result of `filterObj`. -/
theorem filterObj_no_proto_key (h : Heap) (obj : Nat) (allowedFields : List String)
    (hobj : obj < h.length) (hnd : (Obj.keys (h.read obj)).Nodup) :
    "__proto__" ∉ Obj.keys ((filterObj h obj allowedFields).1.read
      (filterObj h obj allowedFields).2) := by
  have hn : h.length < (h ++ [(⟨[], .objectPrototype⟩ : Cell)]).length := by simp
  have hr0 : Heap.read (h ++ [(⟨[], .objectPrototype⟩ : Cell)]) obj = h.read obj := by
    unfold Heap.read
    rw [Heap.cell_append_left h _ obj hobj]
  have hfst : (filterObj h obj allowedFields).1 =
      (Obj.keys (h.read obj)).foldl (filterStep obj h.length allowedFields)
        (h ++ [⟨[], .objectPrototype⟩]) := by
    simp only [filterObj, hr0]
  have hsnd : (filterObj h obj allowedFields).2 = h.length := rfl
  rw [hfst, hsnd]
  apply filterFold_no_proto_key obj h.length allowedFields (Obj.keys (h.read obj))
    (h ++ [(⟨[], .objectPrototype⟩ : Cell)]) hn hnd
  · unfold Heap.read
    rw [Heap.cell_append_length]
    exact List.not_mem_nil _
  · intro _
    rw [Heap.cell_append_length]

theorem find_contactEmail_none {N : Type} (os : List (Org N)) (email : JSVal)
    (h : ∀ o ∈ os, o.contactEmail ≠ email) :
    os.find? (Filter.holds (.byContactEmail email)) = none := by
  rw [List.find?_eq_none]
  intro o ho
  simp [Filter.holds, h o ho]

theorem find_contactEmail_some {N : Type} (os : List (Org N)) (email : JSVal)
    (h : ∃ o ∈ os, o.contactEmail = email) :
    ∃ o, os.find? (Filter.holds (.byContactEmail email)) = some o := by
  rw [← Option.isSome_iff_exists, List.find?_isSome]
  obtain ⟨o, ho, he⟩ := h
  exact ⟨o, ho, by simp [Filter.holds, he]⟩

section StoreLemmas

variable {N : Type}

theorem findByIdAndUpdate_calls (schema : Schema N) (w : World N) (id : JSVal) (u : Nat)
    (a b : Bool) :
    (findByIdAndUpdate schema w id u a b).1.calls =
      w.calls ++ [.findByIdAndUpdate id u a b] := by
  unfold findByIdAndUpdate
  simp only [World.log]
  split
  · rfl
  · split <;> rfl

theorem findByIdAndUpdate_heap (schema : Schema N) (w : World N) (id : JSVal) (u : Nat)
    (a b : Bool) : (findByIdAndUpdate schema w id u a b).1.heap = w.heap := by
  unfold findByIdAndUpdate
  simp only [World.log]
  split
  · rfl
  · split <;> rfl

theorem updateOrganisation_guard (schema : Schema N) (w : World N) (req : Req)
    (h : (Obj.get (w.heap.read req.body) "password").truthy = true ∨
      (Obj.get (w.heap.read req.body) "passwordConfirm").truthy = true) :
    updateOrganisationBody schema w req =
      (w, .returned (some (.appError
        "This route is not for password update , use /updateMyPassword for that " 400))) := by
  unfold updateOrganisationBody
  have hc : ((Obj.get (w.heap.read req.body) "password").truthy ||
      (Obj.get (w.heap.read req.body) "passwordConfirm").truthy) = true := by
    rcases h with h | h <;> simp [h]
  simp only [hc, if_true]

theorem updateOrganisation_unguarded (schema : Schema N) (w : World N) (req : Req)
    (hpw : (Obj.get (w.heap.read req.body) "password").truthy = false)
    (hpc : (Obj.get (w.heap.read req.body) "passwordConfirm").truthy = false) :
    (updateOrganisation schema w req).calls =
      w.calls ++ [.findByIdAndUpdate
        (Obj.get ((filterObj w.heap req.body ["name", "Id", "employees"]).1.read req.body) "_id")
        req.body true true] ∧
    (updateOrganisation schema w req).heap =
      (filterObj w.heap req.body ["name", "Id", "employees"]).1 := by
  have hcalls := findByIdAndUpdate_calls schema
    { w with heap := (filterObj w.heap req.body ["name", "Id", "employees"]).1 }
    (Obj.get ((filterObj w.heap req.body ["name", "Id", "employees"]).1.read req.body) "_id")
    req.body true true
  have hheap := findByIdAndUpdate_heap schema
    { w with heap := (filterObj w.heap req.body ["name", "Id", "employees"]).1 }
    (Obj.get ((filterObj w.heap req.body ["name", "Id", "employees"]).1.read req.body) "_id")
    req.body true true
  unfold updateOrganisation catchAsync updateOrganisationBody
  simp only [hpw, hpc, Bool.or_self, Bool.false_eq_true, if_false]
  rcases hres : findByIdAndUpdate schema
    { w with heap := (filterObj w.heap req.body ["name", "Id", "employees"]).1 }
    (Obj.get ((filterObj w.heap req.body ["name", "Id", "employees"]).1.read req.body) "_id")
    req.body true true with ⟨w2, e | u⟩
  · rw [hres] at hcalls hheap
    exact ⟨hcalls, hheap⟩
  · rw [hres] at hcalls hheap
    exact ⟨hcalls, hheap⟩

end StoreLemmas

section PipelineLemmas

variable {N : Type} [LinearOrder N]

theorem sortOrder_sorted (l : List (Projected N)) :
    List.Sorted sortOrder (l.insertionSort sortOrder) := by
  haveI : IsTotal (Projected N) sortOrder := ⟨fun a b => le_total b.distance a.distance⟩
  haveI : IsTrans (Projected N) sortOrder := ⟨fun _ _ _ hab hbc => le_trans hbc hab⟩
  exact List.sorted_insertionSort sortOrder l

theorem runPipeline_declared (ar : Arith N) (location : Location N) (type : JSVal)
    (docs : List (Org N)) :
    runPipeline ar (pipelineOf location type) docs =
      ((docs.map (project ar location)).filter
        (fun d => decide (d.type = type))).insertionSort sortOrder := by
  simp [runPipeline, pipelineOf]

theorem runPipeline_sorted (ar : Arith N) (location : Location N) (type : JSVal)
    (docs : List (Org N)) :
    List.Sorted (fun a b : N => a ≥ b)
      ((runPipeline ar (pipelineOf location type) docs).map (fun p => p.distance)) := by
  have h := sortOrder_sorted
    ((docs.map (project ar location)).filter (fun p => decide (p.type = type)))
  rw [runPipeline_declared]
  unfold List.Sorted at h ⊢
  rw [List.pairwise_map]
  exact h

theorem runPipeline_perm (ar : Arith N) (location : Location N) (type : JSVal)
    (docs : List (Org N)) :
    (runPipeline ar (pipelineOf location type) docs).Perm
      ((docs.filter (fun o => decide (o.type = type))).map (project ar location)) := by
  rw [runPipeline_declared]
  refine (List.perm_insertionSort sortOrder _).trans ?_
  rw [List.filter_map]
  have hp : ((fun p : Projected N => decide (p.type = type)) ∘ project ar location) =
      (fun o : Org N => decide (o.type = type)) := by
    funext a
    simp [project]
  rw [hp]

end PipelineLemmas

/-- Counterexample to C6: the object parsed from `{"name": "B", "__proto__": 5}`
has the own keys `name` and `__proto__`, both are allowed, and the result of
`filterObj` has the one key `name`: the assignment `newObj["__proto__"] = 5`
runs the setter of `Object.prototype` and creates no property. -/
theorem filterObj_drops_proto_key :
    Obj.keys (heapProtoKey.read 0) = ["name", "__proto__"] ∧
    "__proto__" ∈ ["name", "__proto__"] ∧
    Obj.keys ((filterObj heapProtoKey 0 ["name", "__proto__"]).1.read
      (filterObj heapProtoKey 0 ["name", "__proto__"]).2) = ["name"] := by
  decide

/-- C6, amended. For an object `obj` (an object has distinct keys),
`filterObj(obj, ...allowedFields)` returns a new object (an address that was
not in use) whose own keys are exactly the keys of `obj`, other than
`__proto__`, that occur in `allowedFields`, each once and each with the value
it has in `obj`; no object that existed before the call, `obj` among them, is
modified. -/
theorem filterObj_own_keys (h : Heap) (obj : Nat) (allowedFields : List String)
    (hobj : obj < h.length) (hkeys : (Obj.keys (h.read obj)).Nodup) :
    (filterObj h obj allowedFields).2 = h.length ∧
    (filterObj h obj allowedFields).1.length = h.length + 1 ∧
    (∀ r, r < h.length → (filterObj h obj allowedFields).1.cell r = h.cell r) ∧
    (∀ k, k ∈ Obj.keys ((filterObj h obj allowedFields).1.read (filterObj h obj allowedFields).2) ↔
      k ∈ Obj.keys (h.read obj) ∧ k ∈ allowedFields ∧ k ≠ "__proto__") ∧
    (Obj.keys ((filterObj h obj allowedFields).1.read (filterObj h obj allowedFields).2)).Nodup ∧
    (∀ k, k ∈ Obj.keys (h.read obj) → k ∈ allowedFields → k ≠ "__proto__" →
      Obj.get ((filterObj h obj allowedFields).1.read (filterObj h obj allowedFields).2) k =
        Obj.get (h.read obj) k) := by
  obtain ⟨f1, f2, f3⟩ := filterObj_frame h obj allowedFields hobj
  obtain ⟨g1, g2, g3⟩ := filterObj_keys h obj allowedFields hobj
  have hno := filterObj_no_proto_key h obj allowedFields hobj hkeys
  refine ⟨f1, f2, f3, ?_, g2, ?_⟩
  · intro k
    constructor
    · intro hk
      refine ⟨(g1 k hk).1, (g1 k hk).2.1, ?_⟩
      intro hp
      exact hno (hp ▸ hk)
    · rintro ⟨h1, h2, h3⟩
      exact g3 k h1 h2 h3
  · intro k h1 h2 h3
    exact (g1 k (g3 k h1 h2 h3)).2.2

/-- Witness of C6, amended: filtering `{name: "B", password: "x"}` by `name`,
`Id`, `employees`. -/
theorem filterObj_own_keys_witness :
    (0 < heapSample.length ∧ (Obj.keys (heapSample.read 0)).Nodup) ∧
    (filterObj heapSample 0 ["name", "Id", "employees"]).2 = heapSample.length ∧
    (∀ r, r < heapSample.length →
      (filterObj heapSample 0 ["name", "Id", "employees"]).1.cell r = heapSample.cell r) ∧
    (∀ k, k ∈ Obj.keys ((filterObj heapSample 0 ["name", "Id", "employees"]).1.read
        (filterObj heapSample 0 ["name", "Id", "employees"]).2) ↔
      k ∈ Obj.keys (heapSample.read 0) ∧ k ∈ ["name", "Id", "employees"] ∧
        k ≠ "__proto__") :=
  have h := filterObj_own_keys heapSample 0 ["name", "Id", "employees"] (by decide) (by decide)
  ⟨⟨by decide, by decide⟩, h.1, h.2.2.1, h.2.2.2.1⟩

section Claims

variable {N : Type}

/-- C1, evaluated at a failing input. The stored organisation has the password
`"secret"`; the update body `{_id: 1, password: ""}` contains the key
`password` with a falsy value, passes the guard, is handed to the store as it
is, and the stored password becomes the empty string. -/
theorem updateOrganisation_overwrites_password :
    "password" ∈ Obj.keys (worldEmptyPassword.heap.read reqBody0.body) ∧
    worldEmptyPassword.organisations.map (fun o => o.password) = [.str "secret"] ∧
    (updateOrganisation permissive worldEmptyPassword reqBody0).organisations.map
      (fun o => o.password) = [.str ""] := by
  decide

/-- C2. When the body's `email` is the contact email of a stored organisation,
`createOrganisation` forwards the error "Organisation Already exists", the
only store call is the lookup and neither the store nor the responses change;
when it is the contact email of no stored organisation, the lookup is followed
by exactly one `create` call, whose argument is the request body. -/
theorem createOrganisation_duplicate_check (schema : Schema N) (w : World N) (req : Req) :
    ((∃ o ∈ w.organisations, o.contactEmail = Obj.get (w.heap.read req.body) "email") →
      (createOrganisation schema w req).forwarded =
        w.forwarded ++ [.error "Organisation Already exists"] ∧
      (createOrganisation schema w req).calls =
        w.calls ++ [.findOne (.byContactEmail (Obj.get (w.heap.read req.body) "email"))] ∧
      (createOrganisation schema w req).organisations = w.organisations ∧
      (createOrganisation schema w req).sent = w.sent) ∧
    ((∀ o ∈ w.organisations, o.contactEmail ≠ Obj.get (w.heap.read req.body) "email") →
      (createOrganisation schema w req).calls =
        w.calls ++ [.findOne (.byContactEmail (Obj.get (w.heap.read req.body) "email")),
          .create req.body]) := by
  constructor
  · intro h
    obtain ⟨o, ho⟩ := find_contactEmail_some w.organisations _ h
    simp [createOrganisation, catchAsync, createOrganisationBody, findOne, World.log,
      World.forward, ho]
  · intro h
    have hn := find_contactEmail_none w.organisations _ h
    unfold createOrganisation catchAsync createOrganisationBody findOne create
    simp only [World.log, hn, freeIdent, World.forward]
    split <;> simp

/-- Witness of C2: a body with the contact email of `org0` and a body with
another email, against a store holding `org0`. -/
theorem createOrganisation_duplicate_check_witness :
    ((∃ o ∈ worldDuplicate.organisations,
        o.contactEmail = Obj.get (worldDuplicate.heap.read reqBody0.body) "email") ∧
      (createOrganisation permissive worldDuplicate reqBody0).forwarded =
        worldDuplicate.forwarded ++ [.error "Organisation Already exists"]) ∧
    ((∀ o ∈ worldFresh.organisations,
        o.contactEmail ≠ Obj.get (worldFresh.heap.read reqBody0.body) "email") ∧
      (createOrganisation permissive worldFresh reqBody0).calls =
        worldFresh.calls ++
          [.findOne (.byContactEmail (Obj.get (worldFresh.heap.read reqBody0.body) "email")),
            .create reqBody0.body]) :=
  ⟨⟨⟨org0, by decide, by decide⟩,
      ((createOrganisation_duplicate_check permissive worldDuplicate reqBody0).1
        ⟨org0, by decide, by decide⟩).1⟩,
    ⟨by decide,
      (createOrganisation_duplicate_check permissive worldFresh reqBody0).2 (by decide)⟩⟩

/-- C4, evaluated at a failing input. No stored organisation has the identity
`7`; `getAllRequests` sends no response, and the one error that reaches the
error middleware is the `ReferenceError` raised by the undeclared `next`, not
the `AppError` with message 'Organization not found' and status 404. -/
theorem getAllRequests_missing_forwards_referenceError :
    (∀ o ∈ (worldOf [] [(org0 : Org ℤ)]).organisations, o._id ≠ Obj.get reqOrg7.params "orgId") ∧
    (getAllRequests (worldOf [] [(org0 : Org ℤ)]) reqOrg7).forwarded = [.referenceError "next"] ∧
    (getAllRequests (worldOf [] [(org0 : Org ℤ)]) reqOrg7).forwarded ≠
      [.appError "Organization not found" 404] ∧
    (getAllRequests (worldOf [] [(org0 : Org ℤ)]) reqOrg7).sent = [] := by
  decide

/-- C5, evaluated at a failing input. The stored organisation has a
notification with `at == 5` and the request is `{at: 5}`; `AcceptReqFromOff`
stops at the undeclared `OrgId`: no store call is made, the notification keeps
its status, no session is created, nothing is sent and the `ReferenceError` is
forwarded. -/
theorem AcceptReqFromOff_stops_at_OrgId :
    (org0 : Org ℤ).notifications = [⟨.num 5, .bool false⟩] ∧
    Obj.get (worldAccept.heap.read 1) "at" = .num 5 ∧
    (AcceptReqFromOff worldAccept reqBody0).forwarded = [.referenceError "OrgId"] ∧
    (AcceptReqFromOff worldAccept reqBody0).calls = [] ∧
    (AcceptReqFromOff worldAccept reqBody0).organisations = [org0] ∧
    (AcceptReqFromOff worldAccept reqBody0).sessions = [] ∧
    (AcceptReqFromOff worldAccept reqBody0).sent = [] := by
  decide

/-- C7, evaluated at a failing input. The store holds one organisation, with
contact email `a@x.org`; the body has `email: "b@x.org"` and
`contact: {email: "a@x.org"}`. The lookup by `email` finds nothing, the body
is created, and two stored organisations share the contact email. -/
theorem createOrganisation_breaks_uniqueness :
    (worldOtherEmail.organisations.map (fun o => o.contactEmail)).Nodup ∧
    (createOrganisation permissive worldOtherEmail reqBody0).organisations.map
      (fun o => o.contactEmail) = [.str "a@x.org", .str "a@x.org"] ∧
    ¬ ((createOrganisation permissive worldOtherEmail reqBody0).organisations.map
      (fun o => o.contactEmail)).Nodup := by
  decide

/-- C8. When the body has neither a truthy `password` nor a truthy
`passwordConfirm`, the one store call of `updateOrganisation` is
`findByIdAndUpdate(body._id, body, {new: true, runValidators: true})` with the
request body itself as update document; the object returned by `filterObj` is
another object, the body is unchanged by the filtering, and every body key
outside `name`, `Id`, `employees` is a key of the update document while it is
not a key of the filtered object. -/
theorem updateOrganisation_passes_raw_body (schema : Schema N) (w : World N) (req : Req)
    (hbody : req.body < w.heap.length)
    (hpw : (Obj.get (w.heap.read req.body) "password").truthy = false)
    (hpc : (Obj.get (w.heap.read req.body) "passwordConfirm").truthy = false) :
    (updateOrganisation schema w req).calls =
      w.calls ++ [.findByIdAndUpdate (Obj.get (w.heap.read req.body) "_id") req.body true true] ∧
    (filterObj w.heap req.body ["name", "Id", "employees"]).2 ≠ req.body ∧
    (updateOrganisation schema w req).heap.read req.body = w.heap.read req.body ∧
    ∀ k, k ∈ Obj.keys (w.heap.read req.body) → k ∉ ["name", "Id", "employees"] →
      k ∈ Obj.keys ((updateOrganisation schema w req).heap.read req.body) ∧
      k ∉ Obj.keys ((updateOrganisation schema w req).heap.read
        (filterObj w.heap req.body ["name", "Id", "employees"]).2) := by
  obtain ⟨f1, _, f3⟩ := filterObj_frame w.heap req.body ["name", "Id", "employees"] hbody
  obtain ⟨f4, _, _⟩ := filterObj_keys w.heap req.body ["name", "Id", "employees"] hbody
  obtain ⟨u1, u2⟩ := updateOrganisation_unguarded schema w req hpw hpc
  have hread : (filterObj w.heap req.body ["name", "Id", "employees"]).1.read req.body =
      w.heap.read req.body := by
    unfold Heap.read
    rw [f3 req.body hbody]
  refine ⟨?_, ?_, ?_, ?_⟩
  · rw [u1, hread]
  · rw [f1]
    exact Nat.ne_of_gt hbody
  · rw [u2, hread]
  · intro k hk hnot
    rw [u2, hread]
    refine ⟨hk, ?_⟩
    intro hmem
    exact hnot (f4 k hmem).2.1

/-- Witness of C8: the body `{_id: 1, name: "B", type: "police"}`. -/
theorem updateOrganisation_passes_raw_body_witness :
    (updateOrganisation permissive worldRename reqBody0).calls =
      worldRename.calls ++ [.findByIdAndUpdate
        (Obj.get (worldRename.heap.read reqBody0.body) "_id") reqBody0.body true true] ∧
    "type" ∈ Obj.keys ((updateOrganisation permissive worldRename reqBody0).heap.read
      reqBody0.body) :=
  have h := updateOrganisation_passes_raw_body permissive worldRename reqBody0
    (by decide) (by decide) (by decide)
  ⟨h.1, (h.2.2.2 "type" (by decide) (by decide)).1⟩

/-- Counterexample to C9: the body `{_id: 1, password: "new"}` has a truthy
`password`, and `updateOrganisation` issues no store call at all. -/
theorem updateOrganisation_password_no_update :
    (Obj.get (worldNewPassword.heap.read reqBody0.body) "password").truthy = true ∧
    (updateOrganisation permissive worldNewPassword reqBody0).calls = [] := by
  decide

/-- C9, amended. When the body has a truthy `password` or `passwordConfirm`,
the body of `updateOrganisation` constructs the 400 error and returns it,
which ends the handler: no store call is issued and the stored organisations
are unchanged. -/
theorem updateOrganisation_password_returns (schema : Schema N) (w : World N) (req : Req)
    (h : (Obj.get (w.heap.read req.body) "password").truthy = true ∨
      (Obj.get (w.heap.read req.body) "passwordConfirm").truthy = true) :
    updateOrganisationBody schema w req =
      (w, .returned (some (.appError
        "This route is not for password update , use /updateMyPassword for that " 400))) ∧
    (updateOrganisation schema w req).calls = w.calls ∧
    (updateOrganisation schema w req).organisations = w.organisations := by
  have hg := updateOrganisation_guard schema w req h
  refine ⟨hg, ?_, ?_⟩ <;> simp [updateOrganisation, catchAsync, hg]

/-- Witness of C9, amended: the body `{_id: 1, password: "new"}`. -/
theorem updateOrganisation_password_returns_witness :
    (Obj.get (worldNewPassword.heap.read reqBody0.body) "password").truthy = true ∧
    (updateOrganisation permissive worldNewPassword reqBody0).organisations = [org0] :=
  ⟨by decide,
    (updateOrganisation_password_returns permissive worldNewPassword reqBody0
      (Or.inl (by decide))).2.2⟩

/-- Counterexample to C3: three organisations of the requested type at the
pairwise different distances 0, 5 and 10 from the reference location. The
handler sends no list at all (the call of `aggregate` on the query throws),
and the pipeline it declares sorts with direction `-1`: run on the three
organisations it yields the distances 10, 5, 0, which is not a non-decreasing
sequence. -/
theorem getAllOrganisation_not_nearest_first :
    (∀ o ∈ worldThree.organisations,
      o.type = Obj.get (worldThree.heap.read reqBody0.body) "type") ∧
    (getAllOrganisation (intArith floorSqrt) worldThree reqBody0).sent = [] ∧
    (pipelineOf org0.location (.str "fire")).sortDistance = -1 ∧
    (runPipeline (intArith floorSqrt) (pipelineOf org0.location (.str "fire"))
      worldThree.organisations).map (fun p => p.distance) = [10, 5, 0] ∧
    ([10, 5, 0] : List ℤ).Nodup ∧
    ¬ List.Sorted (fun a b : ℤ => a ≤ b) [10, 5, 0] := by
  decide

/-- C10, evaluated at a failing input. The reference organisation is in the
store and two stored organisations have the requested type; the handler looks
up the reference, builds the query, and the call of `aggregate` on the query
throws: no list is sent and the `TypeError` is forwarded. -/
theorem getAllOrganisation_sends_no_list :
    worldTwo.organisations.find?
      (Filter.holds (.byId (Obj.get (worldTwo.heap.read reqBody0.body) "_id"))) = some org0 ∧
    (worldTwo.organisations.filter
      (fun o => decide (o.type = Obj.get (worldTwo.heap.read reqBody0.body) "type"))).length
        = 2 ∧
    (getAllOrganisation (intArith floorSqrt) worldTwo reqBody0).calls =
      [.findOne (.byId (.num 1)), .find (.byType (.str "fire"))] ∧
    (getAllOrganisation (intArith floorSqrt) worldTwo reqBody0).sent = [] ∧
    (getAllOrganisation (intArith floorSqrt) worldTwo reqBody0).forwarded =
      [.typeError "Organisation.find(...).aggregate is not a function"] := by
  decide

end Claims

section PipelineClaims

variable {N : Type} [LinearOrder N]

/-- C3, amended. The pipeline that `getAllOrganisation` declares sorts
farthest-first: its `$sort` stage has direction `-1`, and for every reference
location, requested type and set of stored organisations its result is a
rearrangement of the projections of the organisations of the requested type
along which the distance field is non-increasing. -/
theorem declaredPipeline_farthest_first (ar : Arith N) (location : Location N) (type : JSVal)
    (docs : List (Org N)) :
    (pipelineOf location type).sortDistance = -1 ∧
    (runPipeline ar (pipelineOf location type) docs).Perm
      ((docs.filter (fun o => decide (o.type = type))).map (project ar location)) ∧
    List.Sorted (fun a b : N => a ≥ b)
      ((runPipeline ar (pipelineOf location type) docs).map (fun p => p.distance)) :=
  ⟨rfl, runPipeline_perm ar location type docs, runPipeline_sorted ar location type docs⟩

end PipelineClaims

end Jatayu
